import Mathlib

/-!
Verification of the layout-directed runtime-helper synthesizer:
the refcount-helper generator (`compiler/mono/src/code_gen_help.rs`) and the
clone-to-buffer generator (`crates/compiler/gen_llvm/src/llvm/expect.rs`).

The first part is a shallow embedding of the mono-IR data model and of the
`CodeGenHelp` state machine. Arena allocation is dropped (Lean values are
immutable trees), `IdentIds` is modelled as the list of interned identifier
strings (an identifier id is the index of its string), and the `println!`
warning side effect is modelled as a returned list of warned-about layouts.
Panics (`unreachable!`, `todo!`, `debug_assert!`) are modelled as
`Except.error`.
-/

namespace Roc

/-- Integer widths used by this core (`roc_builtins::bitcode::IntWidth`).
Only the constructors exercised by `code_gen_help.rs` are modelled. -/
inductive IntWidth where
  | u32
  | i32
  | i64
deriving DecidableEq, Repr

/-- `IntWidth::stack_size` in bytes. -/
def IntWidth.stackSize : IntWidth → Nat
  | .u32 => 4
  | .i32 => 4
  | .i64 => 8

mutual

/-- `crate::layout::Layout`. The `Union` and `LambdaSet` payloads are not
inspected anywhere in `code_gen_help.rs` (only matched on for debug names),
so they are modelled as payload-free constructors. -/
inductive Layout where
  | builtin (b : Builtin)
  | struct_ (field_layouts : List Layout)
  | union_
  | lambdaSet
  | recursivePointer

/-- `crate::layout::Builtin`. `Float`/`Decimal` are never referenced by the
source under verification and are omitted. -/
inductive Builtin where
  | bool
  | int (w : IntWidth)
  | str
  | list (elem : Layout)
  | set (elem : Layout)
  | dict (k : Layout) (v : Layout)

end

mutual

/-- Structural equality on layouts (Rust's derived `PartialEq`). -/
def Layout.beq : Layout → Layout → Bool
  | .builtin a, .builtin b => Builtin.beq a b
  | .struct_ a, .struct_ b => Layout.beqList a b
  | .union_, .union_ => true
  | .lambdaSet, .lambdaSet => true
  | .recursivePointer, .recursivePointer => true
  | _, _ => false

def Layout.beqList : List Layout → List Layout → Bool
  | [], [] => true
  | a :: as, b :: bs => Layout.beq a b && Layout.beqList as bs
  | _, _ => false

def Builtin.beq : Builtin → Builtin → Bool
  | .bool, .bool => true
  | .int w1, .int w2 => w1 = w2
  | .str, .str => true
  | .list a, .list b => Layout.beq a b
  | .set a, .set b => Layout.beq a b
  | .dict k1 v1, .dict k2 v2 => Layout.beq k1 k2 && Layout.beq v1 v2
  | _, _ => false

end

/-- `const LAYOUT_BOOL` of code_gen_help.rs. -/
def LAYOUT_BOOL : Layout := .builtin .bool

/-- `const LAYOUT_UNIT` of code_gen_help.rs. -/
def LAYOUT_UNIT : Layout := .struct_ []

/-- `const LAYOUT_PTR` of code_gen_help.rs. -/
def LAYOUT_PTR : Layout := .recursivePointer

/-- `const LAYOUT_U32` of code_gen_help.rs. -/
def LAYOUT_U32 : Layout := .builtin (.int .u32)

/-- The supported-string-builtin layout. -/
def LAYOUT_STR : Layout := .builtin .str

/-- `roc_module::symbol::Symbol`: a (module id, ident id) pair. -/
structure Sym where
  home : Nat
  ident : Nat
deriving DecidableEq, Repr

/-- `Symbol::ARG_1`: a reserved argument symbol living in a builtin module,
modelled as module id 0 (user modules are modelled with nonzero ids). -/
def Sym.ARG_1 : Sym := ⟨0, 1⟩

/-- `Symbol::ARG_2`. -/
def Sym.ARG_2 : Sym := ⟨0, 2⟩

/-- The low-level operations used by the refcount generators. -/
inductive LowLevel where
  | numGte
  | refCountGetPtr
  | refCountInc
  | refCountDec
deriving DecidableEq, Repr

/-- `crate::ir::Literal` (only integer literals are used here). -/
inductive Literal where
  | int (i : Int)
deriving DecidableEq, Repr

/-- `crate::ir::CallType`. The constant `CallSpecId::BACKEND_DUMMY` and
`UpdateModeId::BACKEND_DUMMY` fields are dropped. -/
inductive CallType where
  | byName (name : Sym) (ret_layout : Layout) (arg_layouts : List Layout)
  | lowLevel (op : LowLevel)

/-- `crate::ir::Call`. -/
structure CallIR where
  call_type : CallType
  arguments : List Sym

/-- `crate::ir::Expr`, restricted to the constructors built by this core. -/
inductive Expr where
  | lit (l : Literal)
  | callE (c : CallIR)
  | structE (fields : List Sym)
  | structAtIndex (index : Nat) (field_layouts : List Layout) (structure_ : Sym)

/-- `crate::ir::Stmt`, restricted to the constructors built by this core.
`BranchInfo::None` is dropped from branches. `following` stands for the
opaque continuation statement handed to `expand_refcount_stmt`. -/
inductive Stmt where
  | let_ (s : Sym) (e : Expr) (l : Layout) (next : Stmt)
  | ret (s : Sym)
  | switch (cond_symbol : Sym) (cond_layout : Layout)
      (branches : List (Nat × Stmt)) (default_branch : Stmt) (ret_layout : Layout)
  | following

/-- `crate::ir::ModifyRc`. -/
inductive ModifyRc where
  | inc (structure_ : Sym) (amount : Int)
  | dec (structure_ : Sym)
  | decref (structure_ : Sym)

/-- `RefcountOp` of code_gen_help.rs. -/
inductive RefcountOp where
  | inc
  | dec
  | decref
deriving DecidableEq, Repr

/-- `crate::ir::ProcLayout`: the external (argument shapes, result shape)
signature recorded for linking. -/
structure ProcLayout where
  arguments : List Layout
  result : Layout

/-- `crate::ir::Proc`. The constant fields (`closure_data_layout = None`,
`is_self_recursive = NotSelfRecursive`, `must_own_arguments = false`,
`host_exposed_layouts = NotHostExposed`) are dropped. -/
structure Proc where
  name : Sym
  args : List (Layout × Sym)
  body : Stmt
  ret_layout : Layout

/-- `IdentIds`: the per-module identifier interner, modelled as the list of
interned strings; an ident id is the index into this list. -/
abbrev IdentIds := List String

/-- `IdentIds::add`: interns a (not necessarily fresh) name, returning a
fresh ident id. -/
def IdentIds.add (ids : IdentIds) (name : String) : Nat × IdentIds :=
  (ids.length, ids ++ [name])

/-- The `CodeGenHelp` state of code_gen_help.rs. -/
structure CodeGenHelp where
  home : Nat
  ptr_size : Nat
  layout_isize : Layout
  rc_procs_to_generate : List (Layout × RefcountOp × Sym)

/-- `CodeGenHelp::new`. -/
def CodeGenHelp.new (intwidth_isize : IntWidth) (home : Nat) : CodeGenHelp :=
  { home := home
    ptr_size := intwidth_isize.stackSize
    layout_isize := .builtin (.int intwidth_isize)
    rc_procs_to_generate := [] }

/-- `CodeGenHelp::create_symbol`. -/
def create_symbol (s : CodeGenHelp) (ids : IdentIds) (debug_name : String) :
    Sym × IdentIds :=
  let (ident_id, ids) := ids.add debug_name
  (⟨s.home, ident_id⟩, ids)

/-- `layout_is_supported` of code_gen_help.rs. -/
def layout_is_supported : Layout → Bool
  | .builtin .str => true
  | _ => false

/-- `layout_debug_name` of code_gen_help.rs. The `unreachable!` on
non-refcounted builtins is modelled as `Except.error`. -/
def layout_debug_name : Layout → Except String String
  | .builtin (.list _) => .ok "list"
  | .builtin (.set _) => .ok "set"
  | .builtin (.dict _ _) => .ok "dict"
  | .builtin .str => .ok "str"
  | .builtin _ => .error "Builtin is not refcounted"
  | .struct_ _ => .ok "struct"
  | .union_ => .ok "union"
  | .lambdaSet => .ok "lambdaset"
  | .recursivePointer => .ok "recursive_pointer"

/-- `RefcountOp`'s derived `Debug` rendering, used in helper debug names. -/
def RefcountOp.debugStr : RefcountOp → String
  | .inc => "Inc"
  | .dec => "Dec"
  | .decref => "DecRef"

/-- The debug name `#rc{op}_{layout}_{idx}` built by `get_proc_symbol`. -/
def rc_proc_debug_name (op : RefcountOp) (layout_name : String) (idx : Nat) :
    String :=
  "#rc" ++ op.debugStr ++ "_" ++ layout_name ++ "_" ++ toString idx

/-- `CodeGenHelp::get_proc_symbol`: find the proc symbol cached for this
(layout, op) pair, or register a new one. Returns `(is_existing, symbol)`
plus the threaded state. -/
def get_proc_symbol (s : CodeGenHelp) (ids : IdentIds) (layout : Layout)
    (op : RefcountOp) : Except String (Bool × Sym × CodeGenHelp × IdentIds) :=
  match s.rc_procs_to_generate.find? (fun e => Layout.beq e.1 layout && e.2.1 = op) with
  | some e => .ok (true, e.2.2, s, ids)
  | none => do
    let layout_name ← layout_debug_name layout
    let unique_idx := s.rc_procs_to_generate.length
    let debug_name := rc_proc_debug_name op layout_name unique_idx
    let (new_symbol, ids) := create_symbol s ids debug_name
    .ok (false, new_symbol,
      { s with rc_procs_to_generate :=
          s.rc_procs_to_generate ++ [(layout, op, new_symbol)] }, ids)

/-- `CodeGenHelp::gen_args`. -/
def gen_args (s : CodeGenHelp) (op : RefcountOp) (layout : Layout) :
    List (Layout × Sym) :=
  let roc_value := (layout, Sym.ARG_1)
  match op with
  | .inc => [roc_value, (s.layout_isize, Sym.ARG_2)]
  | .dec => [roc_value]
  | .decref => [roc_value]

/-- `CodeGenHelp::gen_modify_str`: the body of the string refcount helper,
built exactly in source order (hence the symbol creation order
len, zero, is_big_str, elements, rc_ptr, alignment, zig_call_result, unit). -/
def gen_modify_str (s : CodeGenHelp) (ids : IdentIds) (op : RefcountOp)
    (proc_name : Sym) : Proc × IdentIds :=
  let string := Sym.ARG_1
  let layout_isize := s.layout_isize
  let (len, ids) := create_symbol s ids "len"
  let len_expr := Expr.structAtIndex 1 [LAYOUT_PTR, layout_isize] string
  let (zero, ids) := create_symbol s ids "zero"
  let zero_expr := Expr.lit (.int 0)
  let (is_big_str, ids) := create_symbol s ids "is_big_str"
  let is_big_str_expr := Expr.callE ⟨.lowLevel .numGte, [len, zero]⟩
  let (elements, ids) := create_symbol s ids "elements"
  let elements_expr := Expr.structAtIndex 0 [LAYOUT_PTR, layout_isize] string
  let (rc_ptr, ids) := create_symbol s ids "rc_ptr"
  let rc_ptr_expr := Expr.callE ⟨.lowLevel .refCountGetPtr, [elements]⟩
  let (alignment, ids) := create_symbol s ids "alignment"
  let alignment_expr := Expr.lit (.int s.ptr_size)
  let (zig_call_result, ids) := create_symbol s ids "zig_call_result"
  let zig_call_expr :=
    match op with
    | .inc => Expr.callE ⟨.lowLevel .refCountInc, [rc_ptr, Sym.ARG_2]⟩
    | .dec => Expr.callE ⟨.lowLevel .refCountDec, [rc_ptr, alignment]⟩
    | .decref => Expr.callE ⟨.lowLevel .refCountDec, [rc_ptr, alignment]⟩
  let then_branch :=
    Stmt.let_ elements elements_expr LAYOUT_PTR
      (.let_ rc_ptr rc_ptr_expr LAYOUT_PTR
        (.let_ alignment alignment_expr LAYOUT_U32
          (.let_ zig_call_result zig_call_expr LAYOUT_UNIT
            (.ret zig_call_result))))
  let (unit, ids) := create_symbol s ids "unit"
  let default_branch := Stmt.let_ unit (Expr.structE []) LAYOUT_UNIT (.ret unit)
  let if_stmt :=
    Stmt.switch is_big_str LAYOUT_BOOL [(1, then_branch)] default_branch LAYOUT_UNIT
  let body :=
    Stmt.let_ len len_expr layout_isize
      (.let_ zero zero_expr layout_isize
        (.let_ is_big_str is_big_str_expr LAYOUT_BOOL if_stmt))
  let args := gen_args s op LAYOUT_STR
  ({ name := proc_name, args := args, body := body, ret_layout := LAYOUT_UNIT }, ids)

/-- Result of `expand_refcount_stmt`. `warnings` models the `println!`
side effect on the unsupported path (the layout warned about). -/
structure ExpandResult where
  stmt : Stmt
  new_proc_info : Option (Sym × ProcLayout)
  warnings : List Layout
  state : CodeGenHelp
  ids : IdentIds

/-- `CodeGenHelp::expand_refcount_stmt`, including the memory-leak warning
path for unsupported layouts and, in the `Dec` arm, the source's two
distinct argument-layout lists (`arg_layouts` used for the registered
`ProcLayout` versus the fresh `[layout]` list used in the emitted call). -/
def expand_refcount_stmt (s : CodeGenHelp) (ids : IdentIds) (layout : Layout)
    (modify : ModifyRc) (following : Stmt) : Except String ExpandResult :=
  if layout_is_supported layout = false then
    .ok ⟨following, none, [layout], s, ids⟩
  else
    match modify with
    | .inc structure_ amount => do
      let layout_isize := s.layout_isize
      let (is_existing, proc_name, s, ids) ← get_proc_symbol s ids layout .inc
      let (amount_sym, ids) := create_symbol s ids "amount"
      let amount_expr := Expr.lit (.int amount)
      let arg_layouts := [layout, layout_isize]
      let (call_result_empty, ids) := create_symbol s ids "call_result_empty"
      let call_expr := Expr.callE
        ⟨.byName proc_name LAYOUT_UNIT arg_layouts, [structure_, amount_sym]⟩
      let call_stmt := Stmt.let_ call_result_empty call_expr LAYOUT_UNIT following
      let rc_stmt := Stmt.let_ amount_sym amount_expr layout_isize call_stmt
      let new_proc_info :=
        if is_existing then none
        else some (proc_name, ProcLayout.mk arg_layouts LAYOUT_UNIT)
      .ok ⟨rc_stmt, new_proc_info, [], s, ids⟩
    | .dec structure_ => do
      let (is_existing, proc_name, s, ids) ← get_proc_symbol s ids layout .dec
      let arg_layouts := [layout, s.layout_isize]
      let (call_result_empty, ids) := create_symbol s ids "call_result_empty"
      let call_expr := Expr.callE
        ⟨.byName proc_name LAYOUT_UNIT [layout], [structure_]⟩
      let rc_stmt := Stmt.let_ call_result_empty call_expr LAYOUT_UNIT following
      let new_proc_info :=
        if is_existing then none
        else some (proc_name, ProcLayout.mk arg_layouts LAYOUT_UNIT)
      .ok ⟨rc_stmt, new_proc_info, [], s, ids⟩
    | .decref structure_ =>
      let (rc_ptr_sym, ids) := create_symbol s ids "rc_ptr"
      let rc_ptr_expr := Expr.callE ⟨.lowLevel .refCountGetPtr, [structure_]⟩
      let (call_result_empty, ids) := create_symbol s ids "call_result_empty"
      let call_expr := Expr.callE ⟨.lowLevel .refCountDec, [rc_ptr_sym]⟩
      let call_stmt := Stmt.let_ call_result_empty call_expr LAYOUT_UNIT following
      let rc_stmt := Stmt.let_ rc_ptr_sym rc_ptr_expr LAYOUT_PTR call_stmt
      .ok ⟨rc_stmt, none, [], s, ids⟩

/-- The loop body of `CodeGenHelp::generate_procs` over the drained
pending-helper list; the `todo!`/`debug_assert!` on unsupported layouts is
modelled as `Except.error`. -/
def generate_procs_go (s : CodeGenHelp) (ids : IdentIds) :
    List (Layout × RefcountOp × Sym) → Except String (List Proc × IdentIds)
  | [] => .ok ([], ids)
  | (layout, op, proc_symbol) :: rest =>
    match layout with
    | .builtin .str =>
      let r := gen_modify_str s ids op proc_symbol
      match generate_procs_go s r.2 rest with
      | .ok (ps, ids2) => .ok (r.1 :: ps, ids2)
      | .error e => .error e
    | _ => .error "unsupported layout reached generate_procs"

/-- `CodeGenHelp::generate_procs`: drains (empties) the pending-helper list
via `std::mem::replace` and generates one proc per drained entry. -/
def generate_procs (s : CodeGenHelp) (ids : IdentIds) :
    Except String (List Proc × CodeGenHelp × IdentIds) :=
  let procs_to_generate := s.rc_procs_to_generate
  let s1 := { s with rc_procs_to_generate := [] }
  match generate_procs_go s1 ids procs_to_generate with
  | .ok (ps, ids1) => .ok (ps, s1, ids1)
  | .error e => .error e

/-- Discriminates `Except.ok` results. -/
def exceptOk {α : Type} : Except String α → Bool
  | .ok _ => true
  | .error _ => false

end Roc

namespace Roc

/-!
A small-step-free structural evaluator for the generated mono IR, used to
settle the run-time behavior of the generated string helper. Externally
linked primitives are modelled loosely: `RefCountGetPtr` tags its argument
(the refcount pointer is derived from the elements pointer), and the atomic
`RefCountInc`/`RefCountDec` return unit. Every low-level call executed is
recorded in a trace.
-/

/-- Run-time values for the evaluator. A `Str` value is
`structv [ptrv elements, intv length]`, matching the `[LAYOUT_PTR, isize]`
field layouts used by `gen_modify_str`. -/
inductive Value where
  | intv (i : Int)
  | ptrv (p : Int)
  | structv (fields : List Value)
  | rcptrv (v : Value)

/-- A trace entry: one executed low-level call with its argument values. -/
abbrev Trace := List (LowLevel × List Value)

/-- Evaluation environments. -/
abbrev Env := List (Sym × Value)

/-- Environment lookup (most recent binding wins). -/
def lookupEnv : Env → Sym → Option Value
  | [], _ => none
  | (x, v) :: rest, y => if x = y then some v else lookupEnv rest y

/-- Looks up a list of symbols. -/
def lookupAll (env : Env) : List Sym → Option (List Value)
  | [] => some []
  | x :: xs => do
    let v ← lookupEnv env x
    let vs ← lookupAll env xs
    some (v :: vs)

/-- Semantics of the low-level calls appearing in generated refcount
helpers. `NumGte` compares signed integers; the refcount primitives are
external and are given an abstract result. -/
def evalLowLevel : LowLevel → List Value → Option Value
  | .numGte, [.intv a, .intv b] => some (.intv (if b ≤ a then 1 else 0))
  | .refCountGetPtr, [v] => some (.rcptrv v)
  | .refCountInc, [_, _] => some (.structv [])
  | .refCountDec, _ => some (.structv [])
  | _, _ => none

/-- Expression evaluation, returning the value and the low-level calls
performed. `ByName` calls are not interpreted (no helper body is in scope
during a single helper's evaluation). -/
def evalExpr (env : Env) : Expr → Option (Value × Trace)
  | .lit (.int i) => some (.intv i, [])
  | .structE syms => do
    let vs ← lookupAll env syms
    some (.structv vs, [])
  | .structAtIndex idx _ structure_ => do
    let v ← lookupEnv env structure_
    match v with
    | .structv fields =>
      match fields.get? idx with
      | some f => some (f, [])
      | none => none
    | _ => none
  | .callE c =>
    match c.call_type with
    | .lowLevel op => do
      let vs ← lookupAll env c.arguments
      let r ← evalLowLevel op vs
      some (r, [(op, vs)])
    | .byName _ _ _ => none

mutual

/-- Statement evaluation, returning the result value and the trace of
executed low-level calls. -/
def evalStmt : Env → Stmt → Option (Value × Trace)
  | env, .ret x => do
    let v ← lookupEnv env x
    some (v, [])
  | env, .let_ x e _ next => do
    let (v, t1) ← evalExpr env e
    let (r, t2) ← evalStmt ((x, v) :: env) next
    some (r, t1 ++ t2)
  | env, .switch cond _ branches default_branch _ => do
    let v ← lookupEnv env cond
    match v with
    | .intv n => evalPick env n branches default_branch
    | _ => none
  | _, .following => none
termination_by env st => sizeOf st

/-- Evaluates the switch branch matching the scrutinee, falling through to
the default branch like the generated `Stmt::Switch`. -/
def evalPick (env : Env) (n : Int) : List (Nat × Stmt) → Stmt → Option (Value × Trace)
  | [], default_branch => evalStmt env default_branch
  | (lbl, st) :: rest, default_branch =>
    if (lbl : Int) = n then evalStmt env st else evalPick env n rest default_branch
termination_by bs d => sizeOf bs + sizeOf d

end

/-- The atomic refcount-primitive calls in a trace. -/
def atomicCalls (t : Trace) : Trace :=
  t.filter (fun c => c.1 = .refCountInc ∨ c.1 = .refCountDec)

/-- The body of the string refcount helper generated for operation `op` on
a target whose `isize` width is `w` (fresh module, home module id 1). -/
def strHelperBody (w : IntWidth) (op : RefcountOp) : Stmt :=
  (gen_modify_str (CodeGenHelp.new w 1) [] op ⟨1, 100⟩).1.body

/-- The evaluation environment holding a string value with elements pointer
`p` and signed length `len` in ARG_1, and the increment amount in ARG_2. -/
def strEnv (p len amount : Int) : Env :=
  [(Sym.ARG_1, .structv [.ptrv p, .intv len]), (Sym.ARG_2, .intv amount)]

end Roc

namespace Roc

/-!
Embedding of the clone-to-buffer generator of
`crates/compiler/gen_llvm/src/llvm/expect.rs`. The LLVM builder is
abstracted to the buffer-write and cursor arithmetic it performs: a write
is a (byte position, value, byte width) triple, and cursors are the
`Cursors { offset, extra_offset }` pair threaded through `build_clone`.
Stack sizes come from the layout interner (`roc_mono::layout`, which is not
part of the source under verification); where a size is needed it is either
taken as an explicit argument or modelled from the spec.
-/

/-- The `Cursors` pair of expect.rs. -/
structure Cursors where
  offset : Nat
  extra_offset : Nat
deriving DecidableEq, Repr

/-- One buffer store performed via `build_copy`/`build_store`:
position, value and width in bytes. -/
structure Wr where
  pos : Nat
  val : Nat
  width : Nat
deriving DecidableEq, Repr

/-- The `Layout::Boxed(inner_layout)` arm of `build_clone` (expect.rs):
write the current `extra_offset` at `offset` (a machine-word offset
reference), then recurse into the inner value with
`offset := extra_offset` and `extra_offset := cursors.offset + inner_width`
— note that the source computes `new_extra` from `cursors.offset`, not from
`cursors.extra_offset`. `inner_width` is `stack_size(inner_layout)` and
`ptrW` the machine word width. Returns the offset-reference write and the
cursor pair passed to the recursive `build_clone`. -/
def build_clone_boxed_step (ptrW inner_width : Nat) (c : Cursors) : Wr × Cursors :=
  let write_offset : Wr := ⟨c.offset, c.extra_offset, ptrW⟩
  let new_extra := c.offset + inner_width
  (write_offset, ⟨c.extra_offset, new_extra⟩)

/-- Follows the spec's words (for comparison with `build_clone_boxed_step`):
"write an offset reference at `offset` pointing at `extra_offset`; recurse
into the boxed inner value at the extra region, advancing by the inner
value's static size first" — i.e. the recursion cursors are
`offset := extra_offset` and `extra_offset := extra_offset + inner_width`. -/
def spec_boxed_recursion_cursors (inner_width : Nat) (c : Cursors) : Cursors :=
  ⟨c.extra_offset, c.extra_offset + inner_width⟩

/-- The five physical union encodings (`roc_mono::layout::UnionLayout`),
with each variant's field list abstracted to the fields' stack sizes
(sizes are interner data, modelled from the spec). -/
inductive UnionLayoutS where
  | nonRecursive (tags : List (List Nat))
  | recursive (tags : List (List Nat))
  | nonNullableUnwrapped (fields : List Nat)
  | nullableWrapped (nullable_id : Nat) (other_tags : List (List Nat))
  | nullableUnwrapped (other_fields : List Nat)
deriving DecidableEq, Repr

/-- Sum of a list of sizes (the stack size of the fields-struct). -/
def sizeSum (l : List Nat) : Nat := l.foldr (· + ·) 0

/-- Maximum of a list of sizes. -/
def sizeMax (l : List Nat) : Nat := l.foldr max 0

/-- Modelled from the spec: `UnionLayout::data_size_and_alignment` (from
`roc_mono::layout`, not under the verified sources) — the union's fixed
payload width: the maximum of the variants' field-set sizes, plus the tag
id word when the discriminant is not packed into the pointer. -/
def union_data_size (tag_in_ptr : Bool) (tagW : Nat) (tags : List (List Nat)) : Nat :=
  sizeMax (tags.map sizeSum) + (if tag_in_ptr then 0 else tagW)

/-- `write_pointer_with_tag_id` of expect.rs: when the target packs the tag
id into the pointer's low bits the "pointer" is written as two u32 stores
(tag id, then the offset reference); otherwise one machine-word store of
the offset reference. -/
def write_pointer_with_tag_id (tag_in_ptr : Bool) (ptrW : Nat)
    (offset extra_offset tag_id : Nat) : List Wr :=
  if tag_in_ptr then
    [⟨offset, tag_id, 4⟩, ⟨offset + 4, extra_offset, 4⟩]
  else
    [⟨offset, extra_offset, ptrW⟩]

/-- What the generated helper block does after the writes at the fixed
cursor: terminate as unreachable, return the extra offset unchanged, or
recurse into the chosen variant's fields with a new cursor pair. -/
inductive TagOutcome where
  | unreachable
  | ret (extra : Nat)
  | recurse (c : Cursors) (fields : List Nat)
deriving DecidableEq, Repr

/-- The buffer writes and the control outcome of one generated
`build_clone_tag_help` block. -/
structure TagStep where
  writes : List Wr
  outcome : TagOutcome
deriving DecidableEq, Repr

/-- `build_clone_tag_help` of expect.rs, per physical encoding, abstracted
to its buffer writes and cursor arithmetic for the runtime case selected by
`is_null` and `tag_id` (for out-of-range tag ids the switch falls into its
default, which the source makes the last emitted case). `get_tag_id` and
`load_tag_data` perform no buffer writes and are dropped. -/
def build_clone_tag_help_step (tag_in_ptr : Bool) (ptrW tagW : Nat)
    (ul : UnionLayoutS) (is_null : Bool) (tag_id : Nat)
    (offset extra_offset : Nat) : TagStep :=
  match ul with
  | .nonRecursive [] => ⟨[], .unreachable⟩
  | .nonRecursive tags =>
    let i := min tag_id (tags.length - 1)
    ⟨[], .recurse ⟨offset, extra_offset⟩ ((tags.get? i).getD [])⟩
  | .recursive [] => ⟨[], .unreachable⟩
  | .recursive tags =>
    let i := min tag_id (tags.length - 1)
    let width := union_data_size tag_in_ptr tagW tags
    ⟨write_pointer_with_tag_id tag_in_ptr ptrW offset extra_offset i,
      .recurse ⟨extra_offset, extra_offset + width⟩ ((tags.get? i).getD [])⟩
  | .nonNullableUnwrapped fields =>
    let width := union_data_size true 0 [fields]
    ⟨[⟨offset, extra_offset, ptrW⟩],
      .recurse ⟨extra_offset, extra_offset + width⟩ fields⟩
  | .nullableWrapped nullable_id other_tags =>
    if is_null then
      ⟨[⟨offset, 0, ptrW⟩], .ret extra_offset⟩
    else if other_tags.isEmpty then
      ⟨[], .unreachable⟩
    else
      let i := tag_id
      let fields := if nullable_id ≤ i then (other_tags.get? (i - 1)).getD []
        else (other_tags.get? i).getD []
      let width := union_data_size tag_in_ptr tagW other_tags
      ⟨write_pointer_with_tag_id tag_in_ptr ptrW offset extra_offset i,
        .recurse ⟨extra_offset, extra_offset + width⟩ fields⟩
  | .nullableUnwrapped other_fields =>
    if is_null then
      ⟨[⟨offset, 0, ptrW⟩], .ret extra_offset⟩
    else
      let width := sizeSum other_fields
      ⟨[⟨offset, extra_offset, ptrW⟩],
        .recurse ⟨extra_offset, extra_offset + width⟩ other_fields⟩

end Roc

namespace Roc

/-!
Generation-time model of `build_clone_tag` / `build_clone` (expect.rs):
what matters for termination and caching is the module's procedure table,
keyed by the clone symbol name derived from the union layout's identity
(`layout_ids.get(Symbol::CLONE, &layout).to_symbol_string(..)`), and the
fact that a recursive-pointer occurrence is resolved by a name lookup
rather than by re-expanding the layout. Layouts are modelled as trees in
which a union carries its layout identity `uid` (standing for the interned
layout identity the symbol name is derived from) and a recursive pointer
carries the `uid` of the enclosing union it resolves to; the generated
cursor arithmetic, handled by the step models above, is dropped here.
The `safe_to_memcpy` fast path (which byte-copies and emits no helper) is
omitted: recursive unions, which this model is about, are never safe to
memcpy.
-/

/-- Layout trees as traversed by `build_clone` during helper generation. -/
inductive CLayout where
  | scalar
  | strB
  | lambdaSetB
  | listB (elem : CLayout)
  | structB (field_layouts : List CLayout)
  | boxed (inner : CLayout)
  | unionB (uid : Nat) (variants : List (List CLayout))
  | recPtr (uid : Nat)

/-- The module's procedure table: for each generated clone helper, its
union layout identity and the helper calls its body makes (by callee
layout identity). -/
abbrev ProcTable := List (Nat × List Nat)

/-- The layout identities that have a procedure in the table. -/
def tableKeys (t : ProcTable) : List Nat := t.map (·.1)

/-- Replaces the recorded body of the procedure for `uid`. -/
def setBody (t : ProcTable) (uid : Nat) (body : List Nat) : ProcTable :=
  t.map (fun e => if e.1 = uid then (uid, body) else e)

mutual

/-- `build_clone` at generation time: returns the updated procedure table
and the helper calls emitted into the current code stream. Scalars,
strings and lambda sets emit no helper call; lists, structs and boxes
recurse into their element/field/inner layouts; a union goes through the
cached `build_clone_tag`; a recursive pointer re-enters `build_clone_tag`
for its enclosing union, which must already be in the table (it was added
before its body was generated) — a recursive pointer whose union is not in
the table has escaped its enclosing union and is not generable from the
`uid` alone, modelled as `none`. -/
def genClone : CLayout → ProcTable → Option (ProcTable × List Nat)
  | .scalar, t => some (t, [])
  | .strB, t => some (t, [])
  | .lambdaSetB, t => some (t, [])
  | .listB elem, t => genClone elem t
  | .structB field_layouts, t => genCloneList field_layouts t
  | .boxed inner, t => genClone inner t
  | .unionB uid variants, t => genCloneTag uid variants t
  | .recPtr uid, t =>
    if uid ∈ tableKeys t then some (t, [uid]) else none

/-- Sequential `build_clone` over a struct's field layouts, threading the
table and concatenating the emitted calls. -/
def genCloneList : List CLayout → ProcTable → Option (ProcTable × List Nat)
  | [], t => some (t, [])
  | l :: rest, t =>
    match genClone l t with
    | some (t1, cs1) =>
      match genCloneList rest t1 with
      | some (t2, cs2) => some (t2, cs1 ++ cs2)
      | none => none
    | none => none

/-- `build_clone_tag`: look the helper up by name in the module table; on
a hit emit only a call to it; on a miss add the function to the table
first, then generate its body with `build_clone_tag_help` (whose per-tag
blocks recurse into the variants' field layouts), then emit the call. -/
def genCloneTag (uid : Nat) (variants : List (List CLayout)) (t : ProcTable) :
    Option (ProcTable × List Nat) :=
  if uid ∈ tableKeys t then some (t, [uid])
  else
    match genCloneVariants variants ((uid, []) :: t) with
    | some (t1, body_calls) => some (setBody t1 uid body_calls, [uid])
    | none => none

/-- The per-tag blocks of `build_clone_tag_help`: one `build_clone`
traversal per variant field set, threading the table. -/
def genCloneVariants : List (List CLayout) → ProcTable → Option (ProcTable × List Nat)
  | [], t => some (t, [])
  | v :: rest, t =>
    match genCloneList v t with
    | some (t1, cs1) =>
      match genCloneVariants rest t1 with
      | some (t2, cs2) => some (t2, cs1 ++ cs2)
      | none => none
    | none => none

end

end Roc

namespace Roc

mutual

/-- The union layout identities occurring in a layout tree: the distinct
(layout, clone-operation) pairs for which helpers can be generated. -/
def unionUids : CLayout → List Nat
  | .scalar => []
  | .strB => []
  | .lambdaSetB => []
  | .listB elem => unionUids elem
  | .structB field_layouts => unionUidsList field_layouts
  | .boxed inner => unionUids inner
  | .unionB uid variants => uid :: unionUidsVariants variants
  | .recPtr _ => []

def unionUidsList : List CLayout → List Nat
  | [] => []
  | l :: rest => unionUids l ++ unionUidsList rest

def unionUidsVariants : List (List CLayout) → List Nat
  | [] => []
  | v :: rest => unionUidsList v ++ unionUidsVariants rest

end

end Roc

namespace Roc

mutual

/-- Well-formedness of a layout tree with respect to a set of union
identities already in scope: every recursive pointer resolves either to an
enclosing union of the tree or to a `bound` identity (for generation, one
already present in the procedure table). This is the invariant the
monomorphizer guarantees: `Layout::RecursivePointer` only occurs beneath
the recursive union it points back to. -/
def wfClosed (bound : List Nat) : CLayout → Bool
  | .scalar => true
  | .strB => true
  | .lambdaSetB => true
  | .listB elem => wfClosed bound elem
  | .structB field_layouts => wfClosedList bound field_layouts
  | .boxed inner => wfClosed bound inner
  | .unionB uid variants => wfClosedVariants (uid :: bound) variants
  | .recPtr uid => decide (uid ∈ bound)

def wfClosedList (bound : List Nat) : List CLayout → Bool
  | [] => true
  | l :: rest => wfClosed bound l && wfClosedList bound rest

def wfClosedVariants (bound : List Nat) : List (List CLayout) → Bool
  | [] => true
  | v :: rest => wfClosedList bound v && wfClosedVariants bound rest

end

/-- `setBody` does not change which procedures are in the table. -/
theorem tableKeys_setBody (t : ProcTable) (uid : Nat) (body : List Nat) :
    tableKeys (setBody t uid body) = tableKeys t := by
  induction t with
  | nil => rfl
  | cons e rest ih =>
    simp only [setBody, tableKeys, List.map_cons] at *
    by_cases h : e.1 = uid <;> simp [h, ih]

end Roc

namespace Roc

mutual

/-- `build_clone` only adds procedures: the table grows, every added key is
a union identity occurring in the traversed layout, and key distinctness is
preserved (no layout ever gets a second procedure). -/
theorem genClone_mono : ∀ (l : CLayout) (t t' : ProcTable) (cs : List Nat),
    genClone l t = some (t', cs) →
    (∀ k, k ∈ tableKeys t → k ∈ tableKeys t') ∧
    (∀ k, k ∈ tableKeys t' → k ∈ tableKeys t ∨ k ∈ unionUids l) ∧
    ((tableKeys t).Nodup → (tableKeys t').Nodup)
  | .scalar, t, t', cs, h => by
    simp only [genClone, Option.some.injEq, Prod.mk.injEq] at h
    obtain ⟨h1, -⟩ := h
    subst h1
    exact ⟨fun _ hk => hk, fun _ hk => .inl hk, id⟩
  | .strB, t, t', cs, h => by
    simp only [genClone, Option.some.injEq, Prod.mk.injEq] at h
    obtain ⟨h1, -⟩ := h
    subst h1
    exact ⟨fun _ hk => hk, fun _ hk => .inl hk, id⟩
  | .lambdaSetB, t, t', cs, h => by
    simp only [genClone, Option.some.injEq, Prod.mk.injEq] at h
    obtain ⟨h1, -⟩ := h
    subst h1
    exact ⟨fun _ hk => hk, fun _ hk => .inl hk, id⟩
  | .listB elem, t, t', cs, h => by
    simp only [genClone] at h
    simpa [unionUids] using genClone_mono elem t t' cs h
  | .structB fls, t, t', cs, h => by
    simp only [genClone] at h
    simpa [unionUids] using genCloneList_mono fls t t' cs h
  | .boxed inner, t, t', cs, h => by
    simp only [genClone] at h
    simpa [unionUids] using genClone_mono inner t t' cs h
  | .unionB uid variants, t, t', cs, h => by
    simp only [genClone] at h
    have := genCloneTag_mono uid variants t t' cs h
    exact ⟨this.2.2.1, by simpa [unionUids] using this.2.2.2.1, this.2.2.2.2⟩
  | .recPtr uid, t, t', cs, h => by
    simp only [genClone] at h
    split at h
    · simp only [Option.some.injEq, Prod.mk.injEq] at h
      obtain ⟨h1, -⟩ := h
      subst h1
      exact ⟨fun _ hk => hk, fun _ hk => .inl hk, id⟩
    · exact absurd h (by simp)

theorem genCloneList_mono : ∀ (ls : List CLayout) (t t' : ProcTable) (cs : List Nat),
    genCloneList ls t = some (t', cs) →
    (∀ k, k ∈ tableKeys t → k ∈ tableKeys t') ∧
    (∀ k, k ∈ tableKeys t' → k ∈ tableKeys t ∨ k ∈ unionUidsList ls) ∧
    ((tableKeys t).Nodup → (tableKeys t').Nodup)
  | [], t, t', cs, h => by
    simp only [genCloneList, Option.some.injEq, Prod.mk.injEq] at h
    obtain ⟨h1, -⟩ := h
    subst h1
    exact ⟨fun _ hk => hk, fun _ hk => .inl hk, id⟩
  | l :: rest, t, t', cs, h => by
    simp only [genCloneList] at h
    cases hh1 : genClone l t with
    | none => simp [hh1] at h
    | some r1 =>
      obtain ⟨t1, cs1⟩ := r1
      simp only [hh1] at h
      cases hh2 : genCloneList rest t1 with
      | none => simp [hh1, hh2] at h
      | some r2 =>
        obtain ⟨t2, cs2⟩ := r2
        simp only [hh2] at h
        simp only [Option.some.injEq, Prod.mk.injEq] at h
        obtain ⟨h1, -⟩ := h
        subst h1
        have ih1 := genClone_mono l t t1 cs1 hh1
        have ih2 := genCloneList_mono rest t1 t2 cs2 hh2
        refine ⟨fun k hk => ih2.1 k (ih1.1 k hk), fun k hk => ?_,
          fun hnd => ih2.2.2 (ih1.2.2 hnd)⟩
        rcases ih2.2.1 k hk with h1 | h1
        · rcases ih1.2.1 k h1 with h2 | h2
          · exact .inl h2
          · exact .inr (by simp [unionUidsList, h2])
        · exact .inr (by simp [unionUidsList, h1])

theorem genCloneTag_mono : ∀ (uid : Nat) (variants : List (List CLayout))
    (t t' : ProcTable) (cs : List Nat),
    genCloneTag uid variants t = some (t', cs) →
    cs = [uid] ∧ uid ∈ tableKeys t' ∧
    (∀ k, k ∈ tableKeys t → k ∈ tableKeys t') ∧
    (∀ k, k ∈ tableKeys t' → k ∈ tableKeys t ∨ k ∈ uid :: unionUidsVariants variants) ∧
    ((tableKeys t).Nodup → (tableKeys t').Nodup)
  | uid, variants, t, t', cs, h => by
    simp only [genCloneTag] at h
    split at h
    · rename_i hmem
      simp only [Option.some.injEq, Prod.mk.injEq] at h
      obtain ⟨h1, h2⟩ := h
      subst h1
      subst h2
      exact ⟨rfl, hmem, fun _ hk => hk, fun _ hk => .inl hk, id⟩
    · rename_i hmem
      cases hv : genCloneVariants variants ((uid, []) :: t) with
      | none => rw [hv] at h; exact absurd h (by simp)
      | some r =>
        obtain ⟨t1, body_calls⟩ := r
        rw [hv] at h
        simp only [Option.some.injEq, Prod.mk.injEq] at h
        obtain ⟨h1, h2⟩ := h
        subst h1
        subst h2
        have ih := genCloneVariants_mono variants ((uid, []) :: t) t1 body_calls hv
        have hkeys : tableKeys ((uid, []) :: t) = uid :: tableKeys t := rfl
        have hsb : tableKeys (setBody t1 uid body_calls) = tableKeys t1 :=
          tableKeys_setBody t1 uid body_calls
        refine ⟨rfl, ?_, ?_, ?_, ?_⟩
        · rw [hsb]
          exact ih.1 uid (by simp [hkeys])
        · intro k hk
          rw [hsb]
          exact ih.1 k (by simp [hkeys, hk])
        · intro k hk
          rw [hsb] at hk
          rcases ih.2.1 k hk with h1 | h1
          · rw [hkeys] at h1
            rcases List.mem_cons.mp h1 with h2 | h2
            · exact .inr (by simp [h2])
            · exact .inl h2
          · exact .inr (by simp [h1])
        · intro hnd
          rw [hsb]
          exact ih.2.2 (by simp [hkeys, List.nodup_cons, hmem, hnd])

theorem genCloneVariants_mono : ∀ (variants : List (List CLayout))
    (t t' : ProcTable) (cs : List Nat),
    genCloneVariants variants t = some (t', cs) →
    (∀ k, k ∈ tableKeys t → k ∈ tableKeys t') ∧
    (∀ k, k ∈ tableKeys t' → k ∈ tableKeys t ∨ k ∈ unionUidsVariants variants) ∧
    ((tableKeys t).Nodup → (tableKeys t').Nodup)
  | [], t, t', cs, h => by
    simp only [genCloneVariants, Option.some.injEq, Prod.mk.injEq] at h
    obtain ⟨h1, -⟩ := h
    subst h1
    exact ⟨fun _ hk => hk, fun _ hk => .inl hk, id⟩
  | v :: rest, t, t', cs, h => by
    simp only [genCloneVariants] at h
    cases hh1 : genCloneList v t with
    | none => simp [hh1] at h
    | some r1 =>
      obtain ⟨t1, cs1⟩ := r1
      simp only [hh1] at h
      cases hh2 : genCloneVariants rest t1 with
      | none => simp [hh1, hh2] at h
      | some r2 =>
        obtain ⟨t2, cs2⟩ := r2
        simp only [hh2] at h
        simp only [Option.some.injEq, Prod.mk.injEq] at h
        obtain ⟨h1, -⟩ := h
        subst h1
        have ih1 := genCloneList_mono v t t1 cs1 hh1
        have ih2 := genCloneVariants_mono rest t1 t2 cs2 hh2
        refine ⟨fun k hk => ih2.1 k (ih1.1 k hk), fun k hk => ?_,
          fun hnd => ih2.2.2 (ih1.2.2 hnd)⟩
        rcases ih2.2.1 k hk with h1 | h1
        · rcases ih1.2.1 k h1 with h2 | h2
          · exact .inl h2
          · exact .inr (by simp [unionUidsVariants, h2])
        · exact .inr (by simp [unionUidsVariants, h1])

end

end Roc

namespace Roc

mutual

/-- Helper generation terminates successfully on every well-formed layout:
when each recursive pointer resolves to an enclosing union or to a
procedure already in the table, `build_clone` completes. -/
theorem genClone_isSome : ∀ (l : CLayout) (t : ProcTable) (bound : List Nat),
    wfClosed bound l = true → (∀ k, k ∈ bound → k ∈ tableKeys t) →
    (genClone l t).isSome = true
  | .scalar, t, bound, hwf, hb => by simp [genClone]
  | .strB, t, bound, hwf, hb => by simp [genClone]
  | .lambdaSetB, t, bound, hwf, hb => by simp [genClone]
  | .listB elem, t, bound, hwf, hb => by
    simp only [wfClosed] at hwf
    simp only [genClone]
    exact genClone_isSome elem t bound hwf hb
  | .structB fls, t, bound, hwf, hb => by
    simp only [wfClosed] at hwf
    simp only [genClone]
    exact genCloneList_isSome fls t bound hwf hb
  | .boxed inner, t, bound, hwf, hb => by
    simp only [wfClosed] at hwf
    simp only [genClone]
    exact genClone_isSome inner t bound hwf hb
  | .unionB uid variants, t, bound, hwf, hb => by
    simp only [wfClosed] at hwf
    simp only [genClone]
    exact genCloneTag_isSome uid variants t bound hwf hb
  | .recPtr uid, t, bound, hwf, hb => by
    simp only [wfClosed, decide_eq_true_eq] at hwf
    simp [genClone, hb uid hwf]

theorem genCloneList_isSome : ∀ (ls : List CLayout) (t : ProcTable) (bound : List Nat),
    wfClosedList bound ls = true → (∀ k, k ∈ bound → k ∈ tableKeys t) →
    (genCloneList ls t).isSome = true
  | [], t, bound, hwf, hb => by simp [genCloneList]
  | l :: rest, t, bound, hwf, hb => by
    simp only [wfClosedList, Bool.and_eq_true] at hwf
    have h1 := genClone_isSome l t bound hwf.1 hb
    cases hh1 : genClone l t with
    | none => rw [hh1] at h1; simp at h1
    | some r1 =>
      obtain ⟨t1, cs1⟩ := r1
      have hb1 : ∀ k, k ∈ bound → k ∈ tableKeys t1 :=
        fun k hk => (genClone_mono l t t1 cs1 hh1).1 k (hb k hk)
      have h2 := genCloneList_isSome rest t1 bound hwf.2 hb1
      cases hh2 : genCloneList rest t1 with
      | none => rw [hh2] at h2; simp at h2
      | some r2 => simp [genCloneList, hh1, hh2]

theorem genCloneTag_isSome : ∀ (uid : Nat) (variants : List (List CLayout))
    (t : ProcTable) (bound : List Nat),
    wfClosedVariants (uid :: bound) variants = true →
    (∀ k, k ∈ bound → k ∈ tableKeys t) →
    (genCloneTag uid variants t).isSome = true
  | uid, variants, t, bound, hwf, hb => by
    by_cases hmem : uid ∈ tableKeys t
    · simp [genCloneTag, hmem]
    · have hb1 : ∀ k, k ∈ uid :: bound → k ∈ tableKeys ((uid, []) :: t) := by
        intro k hk
        rcases List.mem_cons.mp hk with h | h
        · simp [tableKeys, h]
        · have := hb k h
          simp [tableKeys] at this ⊢
          exact .inr this
      have h1 := genCloneVariants_isSome variants ((uid, []) :: t) (uid :: bound) hwf hb1
      cases hh1 : genCloneVariants variants ((uid, []) :: t) with
      | none => rw [hh1] at h1; simp at h1
      | some r1 =>
        obtain ⟨t1, body_calls⟩ := r1
        simp [genCloneTag, hmem, hh1]

theorem genCloneVariants_isSome : ∀ (variants : List (List CLayout))
    (t : ProcTable) (bound : List Nat),
    wfClosedVariants bound variants = true →
    (∀ k, k ∈ bound → k ∈ tableKeys t) →
    (genCloneVariants variants t).isSome = true
  | [], t, bound, hwf, hb => by simp [genCloneVariants]
  | v :: rest, t, bound, hwf, hb => by
    simp only [wfClosedVariants, Bool.and_eq_true] at hwf
    have h1 := genCloneList_isSome v t bound hwf.1 hb
    cases hh1 : genCloneList v t with
    | none => rw [hh1] at h1; simp at h1
    | some r1 =>
      obtain ⟨t1, cs1⟩ := r1
      have hb1 : ∀ k, k ∈ bound → k ∈ tableKeys t1 :=
        fun k hk => (genCloneList_mono v t t1 cs1 hh1).1 k (hb k hk)
      have h2 := genCloneVariants_isSome rest t1 bound hwf.2 hb1
      cases hh2 : genCloneVariants rest t1 with
      | none => rw [hh2] at h2; simp at h2
      | some r2 => simp [genCloneVariants, hh1, hh2]

end

end Roc

namespace Roc

/-- Every element of a size list is bounded by `sizeMax`. -/
theorem le_sizeMax_of_mem : ∀ {l : List Nat} {x : Nat}, x ∈ l → x ≤ sizeMax l := by
  intro l
  induction l with
  | nil => intro x h; simp at h
  | cons a rest ih =>
    intro x h
    rcases List.mem_cons.mp h with h1 | h1
    · subst h1
      exact le_max_left _ _
    · exact le_trans (ih h1) (le_max_right a (sizeMax rest))

/-- A variant's field-set size never exceeds the union's fixed payload
width. -/
theorem sizeSum_le_union_data_size (tag_in_ptr : Bool) (tagW : Nat)
    (tags : List (List Nat)) (fields : List Nat) (h : fields ∈ tags) :
    sizeSum fields ≤ union_data_size tag_in_ptr tagW tags :=
  le_trans (le_sizeMax_of_mem (List.mem_map_of_mem sizeSum h)) (Nat.le_add_right _ _)

/-- Projects the argument layouts of the `CallType::ByName` call found at
the head (or one `Let` deep) of an expanded refcount statement. -/
def head_call_arg_layouts : Stmt → Option (List Layout)
  | .let_ _ (.callE ⟨.byName _ _ arg_layouts, _⟩) _ _ => some arg_layouts
  | .let_ _ _ _ (.let_ _ (.callE ⟨.byName _ _ arg_layouts, _⟩) _ _) => some arg_layouts
  | _ => none

/-- Follows the claim's words: an inline decref expansion is a `Let` of a
`RefCountGetPtr` low-level call computing the refcount pointer from the
payload pointer, followed directly by a `Let` of a `RefCountDec` low-level
call on that pointer. -/
def is_inline_decref_expansion : Stmt → Bool
  | .let_ _ (.callE ⟨.lowLevel .refCountGetPtr, _⟩) _
      (.let_ _ (.callE ⟨.lowLevel .refCountDec, _⟩) _ _) => true
  | _ => false

end Roc

namespace Roc

/-- Claim C1 (code bug at `ModifyRc::Dec`): expanding a decrement of the
supported string layout registers the external `ProcLayout` signature
`[Str, isize]` (the `arg_layouts` list built at the top of the `Dec` arm),
while the emitted call's argument layouts and the generated helper's
parameter list are both just `[Str]` — so the registered signature does
not agree with the call or the helper, contradicting the claim, whose
description (`[value-layout]` for decrement, agreeing with both) matches
the call and the helper. Evaluated at a fresh 64-bit state. -/
theorem claim_C1_dec_registered_signature_mismatch :
    (expand_refcount_stmt (CodeGenHelp.new .i64 1) [] LAYOUT_STR (.dec ⟨1, 50⟩)
        .following).toOption.map
      (fun r => (r.new_proc_info.map (fun pi => pi.2.arguments),
        head_call_arg_layouts r.stmt))
      = some (some [LAYOUT_STR, .builtin (.int .i64)], some [LAYOUT_STR])
    ∧ (gen_args (CodeGenHelp.new .i64 1) .dec LAYOUT_STR).map Prod.fst = [LAYOUT_STR]
    ∧ (generate_procs
        { CodeGenHelp.new .i64 1 with
            rc_procs_to_generate := [(LAYOUT_STR, .dec, ⟨1, 0⟩)] } []).toOption.map
        (fun r => r.1.map (fun p => p.args.map Prod.fst))
      = some [[LAYOUT_STR]]
    ∧ ([LAYOUT_STR, Layout.builtin (.int .i64)] : List Layout) ≠ [LAYOUT_STR] := by
  refine ⟨rfl, rfl, rfl, by simp⟩

/-- Claim C2 (code bug in the `Layout::Boxed` arm of `build_clone`): at
cursors (offset 0, extra_offset 8) and inner stack size 16, the source
writes the offset reference 8 at position 0 as the claim says, but then
recurses with the cursor pair (8, 16): it computes the recursion
extra-position as `cursors.offset + inner_width`, whereas the claim (and
the spec, consistent with every sibling arm) requires (8, 24), the old
`extra_offset` advanced by the inner width. -/
theorem claim_C2_boxed_recursion_cursor_mismatch :
    (build_clone_boxed_step 8 16 ⟨0, 8⟩).2 = ⟨8, 16⟩
    ∧ spec_boxed_recursion_cursors 16 ⟨0, 8⟩ = ⟨8, 24⟩
    ∧ (build_clone_boxed_step 8 16 ⟨0, 8⟩).2 ≠ spec_boxed_recursion_cursors 16 ⟨0, 8⟩
    ∧ (build_clone_boxed_step 8 16 ⟨0, 8⟩).1 = ⟨0, 8, 8⟩ :=
  ⟨rfl, rfl, by decide, rfl⟩

/-- Claim C9: when clone generation reaches a tag union with zero variants
(the empty `NonRecursive` and the empty `Recursive` encodings), the
generated block is an explicit unreachable terminator: no buffer writes,
no tag dispatch, and the block neither returns an extra offset nor
recurses into a clone call. -/
theorem claim_C9_empty_union_unreachable : ∀ (tag_in_ptr : Bool)
    (ptrW tagW : Nat) (is_null : Bool) (tag_id offset extra_offset : Nat),
    build_clone_tag_help_step tag_in_ptr ptrW tagW (.nonRecursive []) is_null
        tag_id offset extra_offset = ⟨[], .unreachable⟩
    ∧ build_clone_tag_help_step tag_in_ptr ptrW tagW (.recursive []) is_null
        tag_id offset extra_offset = ⟨[], .unreachable⟩ := by
  intro _ _ _ _ _ _ _
  exact ⟨rfl, rfl⟩

/-- Claim C8, counterexample: for the unsupported layout `List Str`, a
decref request is not expanded inline at all — the warning path drops the
operation and returns the following statement unchanged (while still
registering no helper), refuting the claim's "for every layout ... it is
expanded inline as a low-level call". -/
theorem claim_C8_counterexample :
    (expand_refcount_stmt (CodeGenHelp.new .i64 1) []
        (.builtin (.list LAYOUT_STR)) (.decref ⟨1, 50⟩) .following).toOption.map
      (fun r => (is_inline_decref_expansion r.stmt, r.new_proc_info.isSome,
        r.state.rc_procs_to_generate.length, r.warnings.length))
      = some (false, false, 0, 1) := rfl

/-- Claim C8 (amended): for every layout, expanding a decref-only request
never allocates or registers a helper procedure (no signature is returned
and the cache is untouched); for every supported layout it is expanded
inline as a `RefCountGetPtr` low-level call computing the refcount pointer
from the payload pointer followed by a direct `RefCountDec` low-level call
on that pointer; for unsupported layouts the request is dropped with a
warning instead. -/
theorem claim_C8_decref_never_registers : ∀ (s : CodeGenHelp)
    (ids : IdentIds) (x : Sym) (next : Stmt) (layout : Layout),
    expand_refcount_stmt s ids layout (.decref x) next =
      .ok (if layout_is_supported layout = true then
        ⟨Stmt.let_ ⟨s.home, ids.length⟩
            (.callE ⟨.lowLevel .refCountGetPtr, [x]⟩) LAYOUT_PTR
            (.let_ ⟨s.home, ids.length + 1⟩
              (.callE ⟨.lowLevel .refCountDec, [⟨s.home, ids.length⟩]⟩)
              LAYOUT_UNIT next),
          none, [], s, ids ++ ["rc_ptr", "call_result_empty"]⟩
      else ⟨next, none, [layout], s, ids⟩) := by
  intro s ids x next layout
  by_cases h : layout_is_supported layout = true
  · simp [expand_refcount_stmt, h, create_symbol, IdentIds.add]
  · have h2 : layout_is_supported layout = false := by
      revert h
      cases layout_is_supported layout <;> simp
    simp [expand_refcount_stmt, h2]

/-- If any drained entry's layout is unsupported, the generation loop is
fatal. -/
theorem generate_procs_go_error_of_unsupported (s : CodeGenHelp) :
    ∀ (entries : List (Layout × RefcountOp × Sym)) (ids : IdentIds),
    (∃ e ∈ entries, layout_is_supported e.1 = false) →
    exceptOk (generate_procs_go s ids entries) = false := by
  intro entries
  induction entries with
  | nil => intro ids h; simp at h
  | cons e rest ih =>
    intro ids h
    obtain ⟨layout, op, proc_symbol⟩ := e
    obtain ⟨x, hx, hxu⟩ := h
    cases layout with
    | builtin b =>
      cases b with
      | str =>
        rcases List.mem_cons.mp hx with h1 | h1
        · subst h1
          simp [layout_is_supported] at hxu
        · have ihr := ih (gen_modify_str s ids op proc_symbol).2 ⟨x, h1, hxu⟩
          simp only [generate_procs_go]
          cases hgo : generate_procs_go s (gen_modify_str s ids op proc_symbol).2 rest with
          | ok r => rw [hgo] at ihr; simp [exceptOk] at ihr
          | error e2 => simp [hgo, exceptOk]
      | bool => simp [generate_procs_go, exceptOk]
      | int w => simp [generate_procs_go, exceptOk]
      | list e2 => simp [generate_procs_go, exceptOk]
      | set e2 => simp [generate_procs_go, exceptOk]
      | dict k v => simp [generate_procs_go, exceptOk]
    | struct_ fls => simp [generate_procs_go, exceptOk]
    | union_ => simp [generate_procs_go, exceptOk]
    | lambdaSet => simp [generate_procs_go, exceptOk]
    | recursivePointer => simp [generate_procs_go, exceptOk]

/-- Claim C4: for every unsupported layout, expanding a modify-refcount
request warns, drops the operation (the following statement is returned
unchanged, no call emitted), registers nothing (state and ids untouched)
and never panics (the result is `ok`); while an unsupported layout
reaching body generation is fatal. -/
theorem claim_C4_unsupported_layout_warns_and_drops :
    (∀ (s : CodeGenHelp) (ids : IdentIds) (layout : Layout)
      (modify : ModifyRc) (next : Stmt), layout_is_supported layout = false →
      expand_refcount_stmt s ids layout modify next =
        .ok ⟨next, none, [layout], s, ids⟩)
    ∧ (∀ (s : CodeGenHelp) (ids : IdentIds),
      (∃ e ∈ s.rc_procs_to_generate, layout_is_supported e.1 = false) →
      exceptOk (generate_procs s ids) = false) := by
  constructor
  · intro s ids layout modify next h
    simp [expand_refcount_stmt, h]
  · intro s ids h
    simp only [generate_procs]
    cases hgo : generate_procs_go { s with rc_procs_to_generate := [] } ids
        s.rc_procs_to_generate with
    | ok r =>
      have h1 := generate_procs_go_error_of_unsupported
        { s with rc_procs_to_generate := [] } s.rc_procs_to_generate ids h
      rw [hgo] at h1
      simp [exceptOk] at h1
    | error e => simp [hgo, exceptOk]

/-- Witness for claim C4 at the unsupported layout `Bool`: the request is
dropped without panicking and body generation on such an entry is fatal. -/
theorem claim_C4_witness :
    layout_is_supported LAYOUT_BOOL = false
    ∧ expand_refcount_stmt (CodeGenHelp.new .i64 1) [] LAYOUT_BOOL
        (.dec ⟨1, 50⟩) .following
        = .ok ⟨.following, none, [LAYOUT_BOOL], CodeGenHelp.new .i64 1, []⟩
    ∧ exceptOk (generate_procs
        { CodeGenHelp.new .i64 1 with
            rc_procs_to_generate := [(LAYOUT_BOOL, .dec, ⟨1, 0⟩)] } []) = false :=
  ⟨rfl,
   claim_C4_unsupported_layout_warns_and_drops.1 _ _ _ _ _ rfl,
   claim_C4_unsupported_layout_warns_and_drops.2 _ _
     ⟨(LAYOUT_BOOL, .dec, ⟨1, 0⟩), by simp, rfl⟩⟩

end Roc

namespace Roc

/-- Claim C3: for the supported layout and every refcount operation, two
sequential helper requests return the same helper symbol; the second
request reports the helper as already existing and changes neither the
cache nor the identifier state (no second registration); and the
generation pass produces exactly one procedure body, named by that symbol,
for the pair. -/
theorem claim_C3_idempotent_caching : ∀ (w : IntWidth) (home : Nat)
    (ids0 : IdentIds) (op : RefcountOp),
    get_proc_symbol (CodeGenHelp.new w home) ids0 LAYOUT_STR op =
      .ok (false, ⟨home, ids0.length⟩,
        { CodeGenHelp.new w home with
            rc_procs_to_generate := [(LAYOUT_STR, op, ⟨home, ids0.length⟩)] },
        ids0 ++ [rc_proc_debug_name op "str" 0])
    ∧ get_proc_symbol
        { CodeGenHelp.new w home with
            rc_procs_to_generate := [(LAYOUT_STR, op, ⟨home, ids0.length⟩)] }
        (ids0 ++ [rc_proc_debug_name op "str" 0]) LAYOUT_STR op =
      .ok (true, ⟨home, ids0.length⟩,
        { CodeGenHelp.new w home with
            rc_procs_to_generate := [(LAYOUT_STR, op, ⟨home, ids0.length⟩)] },
        ids0 ++ [rc_proc_debug_name op "str" 0])
    ∧ (generate_procs
        { CodeGenHelp.new w home with
            rc_procs_to_generate := [(LAYOUT_STR, op, ⟨home, ids0.length⟩)] }
        (ids0 ++ [rc_proc_debug_name op "str" 0])).toOption.map
        (fun r => r.1.map Proc.name)
      = some [⟨home, ids0.length⟩] := by
  intro w home ids0 op
  refine ⟨rfl, ?_, rfl⟩
  simp [get_proc_symbol, List.find?, Layout.beq, Builtin.beq, LAYOUT_STR]

end Roc

namespace Roc

/-- Claim C10: `generate_procs` empties the pending-helper list that also
serves as the memoization cache (the drained state's list is `[]`, i.e.
the fresh state), so a later request for the same (Str, op) pair is
treated as new: on any identifier state it reports `is_existing = false`,
allocates the symbol whose ident id is the current interner length — for
the post-generation interner this is `ids0.length + 9`, distinct from the
first helper's symbol id `ids0.length` — and derives its debug name with
the counter restarted at index 0. -/
theorem claim_C10_generate_procs_drains_cache : ∀ (w : IntWidth)
    (home : Nat) (ids0 : IdentIds) (op : RefcountOp),
    get_proc_symbol (CodeGenHelp.new w home) ids0 LAYOUT_STR op =
      .ok (false, ⟨home, ids0.length⟩,
        { CodeGenHelp.new w home with
            rc_procs_to_generate := [(LAYOUT_STR, op, ⟨home, ids0.length⟩)] },
        ids0 ++ [rc_proc_debug_name op "str" 0])
    ∧ (generate_procs
        { CodeGenHelp.new w home with
            rc_procs_to_generate := [(LAYOUT_STR, op, ⟨home, ids0.length⟩)] }
        (ids0 ++ [rc_proc_debug_name op "str" 0])).toOption.map
        (fun r => (r.1.length, r.2.1.rc_procs_to_generate, r.2.2))
      = some (1, [],
          ids0 ++ [rc_proc_debug_name op "str" 0] ++
            ["len", "zero", "is_big_str", "elements", "rc_ptr", "alignment",
              "zig_call_result", "unit"])
    ∧ (∀ ids2 : IdentIds,
        get_proc_symbol (CodeGenHelp.new w home) ids2 LAYOUT_STR op =
          .ok (false, ⟨home, ids2.length⟩,
            { CodeGenHelp.new w home with
                rc_procs_to_generate := [(LAYOUT_STR, op, ⟨home, ids2.length⟩)] },
            ids2 ++ [rc_proc_debug_name op "str" 0]))
    ∧ (ids0 ++ [rc_proc_debug_name op "str" 0] ++
        ["len", "zero", "is_big_str", "elements", "rc_ptr", "alignment",
          "zig_call_result", "unit"]).length = ids0.length + 9
    ∧ (⟨home, ids0.length + 9⟩ : Sym) ≠ ⟨home, ids0.length⟩ := by
  intro w home ids0 op
  refine ⟨rfl, ?_, fun ids2 => rfl, by simp, ?_⟩
  · simp [generate_procs, generate_procs_go, gen_modify_str, create_symbol,
      IdentIds.add, Except.toOption, LAYOUT_STR]
  · intro hcon
    injection hcon with h1 h2
    omega

end Roc

namespace Roc

/-- Claim C5: evaluating the generated string refcount helper on a string
whose signed length is `len`: when `len < 0` (sign bit set, small string)
both the increment and the decrement helper return immediately with an
empty-struct result having performed no atomic call (the only low-level
executed is the signed `len >= 0` comparison); when `0 <= len` each
performs exactly one atomic primitive call — `RefCountInc` with the amount
argument, or `RefCountDec` with the pointer-width alignment constant — on
the refcount pointer derived (via `RefCountGetPtr`) from the elements
pointer. -/
theorem claim_C5_str_helper_small_string_skip : ∀ (w : IntWidth)
    (p len amount : Int),
    (len < 0 →
      evalStmt (strEnv p len amount) (strHelperBody w .inc)
        = some (.structv [], [(.numGte, [.intv len, .intv 0])])
      ∧ evalStmt (strEnv p len amount) (strHelperBody w .dec)
        = some (.structv [], [(.numGte, [.intv len, .intv 0])])
      ∧ atomicCalls [(.numGte, [.intv len, .intv 0])] = [])
    ∧ (0 ≤ len →
      evalStmt (strEnv p len amount) (strHelperBody w .inc)
        = some (.structv [],
            [(.numGte, [.intv len, .intv 0]),
             (.refCountGetPtr, [.ptrv p]),
             (.refCountInc, [.rcptrv (.ptrv p), .intv amount])])
      ∧ evalStmt (strEnv p len amount) (strHelperBody w .dec)
        = some (.structv [],
            [(.numGte, [.intv len, .intv 0]),
             (.refCountGetPtr, [.ptrv p]),
             (.refCountDec, [.rcptrv (.ptrv p), .intv (w.stackSize : Int)])])
      ∧ atomicCalls
          [(.numGte, [.intv len, .intv 0]),
           (.refCountGetPtr, [.ptrv p]),
           (.refCountInc, [.rcptrv (.ptrv p), .intv amount])]
        = [(.refCountInc, [.rcptrv (.ptrv p), .intv amount])]
      ∧ atomicCalls
          [(.numGte, [.intv len, .intv 0]),
           (.refCountGetPtr, [.ptrv p]),
           (.refCountDec, [.rcptrv (.ptrv p), .intv (w.stackSize : Int)])]
        = [(.refCountDec, [.rcptrv (.ptrv p), .intv (w.stackSize : Int)])]) := by
  intro w p len amount
  constructor
  · intro h
    have h2 : ¬ ((0 : Int) ≤ len) := by omega
    refine ⟨?_, ?_, rfl⟩
    · simp [strHelperBody, gen_modify_str, gen_args, create_symbol, IdentIds.add,
        CodeGenHelp.new, strEnv, evalStmt, evalPick, evalExpr, evalLowLevel,
        lookupEnv, lookupAll, Sym.ARG_1, Sym.ARG_2, h2, LAYOUT_STR, LAYOUT_PTR,
        LAYOUT_UNIT, LAYOUT_BOOL, LAYOUT_U32, List.get?]
    · simp [strHelperBody, gen_modify_str, gen_args, create_symbol, IdentIds.add,
        CodeGenHelp.new, strEnv, evalStmt, evalPick, evalExpr, evalLowLevel,
        lookupEnv, lookupAll, Sym.ARG_1, Sym.ARG_2, h2, LAYOUT_STR, LAYOUT_PTR,
        LAYOUT_UNIT, LAYOUT_BOOL, LAYOUT_U32, List.get?]
  · intro h
    refine ⟨?_, ?_, rfl, rfl⟩
    · simp [strHelperBody, gen_modify_str, gen_args, create_symbol, IdentIds.add,
        CodeGenHelp.new, strEnv, evalStmt, evalPick, evalExpr, evalLowLevel,
        lookupEnv, lookupAll, Sym.ARG_1, Sym.ARG_2, h, LAYOUT_STR, LAYOUT_PTR,
        LAYOUT_UNIT, LAYOUT_BOOL, LAYOUT_U32, List.get?]
    · simp [strHelperBody, gen_modify_str, gen_args, create_symbol, IdentIds.add,
        CodeGenHelp.new, strEnv, evalStmt, evalPick, evalExpr, evalLowLevel,
        lookupEnv, lookupAll, Sym.ARG_1, Sym.ARG_2, h, LAYOUT_STR, LAYOUT_PTR,
        LAYOUT_UNIT, LAYOUT_BOOL, LAYOUT_U32, List.get?]

end Roc

namespace Roc

/-- Witness for claim C5: a small string (length -1) under decrement makes
no atomic call; a heap string (length 5) under increment makes exactly the
one atomic increment call. -/
theorem claim_C5_witness :
    ((-1 : Int) < 0
      ∧ evalStmt (strEnv 1000 (-1) 2) (strHelperBody .i64 .dec)
          = some (.structv [], [(.numGte, [.intv (-1), .intv 0])]))
    ∧ ((0 : Int) ≤ 5
      ∧ evalStmt (strEnv 1000 5 2) (strHelperBody .i64 .inc)
          = some (.structv [],
              [(.numGte, [.intv 5, .intv 0]),
               (.refCountGetPtr, [.ptrv 1000]),
               (.refCountInc, [.rcptrv (.ptrv 1000), .intv 2])])) :=
  ⟨⟨by norm_num,
    ((claim_C5_str_helper_small_string_skip .i64 1000 (-1) 2).1 (by norm_num)).2.1⟩,
   ⟨by norm_num,
    ((claim_C5_str_helper_small_string_skip .i64 1000 5 2).2 (by norm_num)).1⟩⟩

/-- Claim C6: for both nullable encodings, cloning the null case writes a
single zero machine word at the fixed cursor and returns the extra-offset
unchanged; cloning a non-null case writes an offset reference equal to the
(nonzero) extra-offset as its last fixed-slot store and recurses with the
extra-offset advanced by the union's payload width, which is at least the
selected variant's field-set size — a strict advance whenever that size is
positive. -/
theorem claim_C6_nullable_union_clone : ∀ (tag_in_ptr : Bool)
    (ptrW tagW nullable_id : Nat) (other_tags : List (List Nat))
    (other_fields : List Nat) (tag_id offset extra_offset : Nat)
    (fields : List Nat),
    (build_clone_tag_help_step tag_in_ptr ptrW tagW
        (.nullableWrapped nullable_id other_tags) true tag_id offset extra_offset
      = ⟨[⟨offset, 0, ptrW⟩], .ret extra_offset⟩)
    ∧ (build_clone_tag_help_step tag_in_ptr ptrW tagW
        (.nullableUnwrapped other_fields) true tag_id offset extra_offset
      = ⟨[⟨offset, 0, ptrW⟩], .ret extra_offset⟩)
    ∧ (0 < extra_offset →
       (if nullable_id ≤ tag_id then other_tags.get? (tag_id - 1) = some fields
        else other_tags.get? tag_id = some fields) →
       build_clone_tag_help_step tag_in_ptr ptrW tagW
          (.nullableWrapped nullable_id other_tags) false tag_id offset extra_offset
        = ⟨write_pointer_with_tag_id tag_in_ptr ptrW offset extra_offset tag_id,
            .recurse ⟨extra_offset,
                extra_offset + union_data_size tag_in_ptr tagW other_tags⟩ fields⟩
       ∧ (write_pointer_with_tag_id tag_in_ptr ptrW offset extra_offset tag_id).getLast?
           = some ⟨if tag_in_ptr then offset + 4 else offset, extra_offset,
               if tag_in_ptr then 4 else ptrW⟩
       ∧ extra_offset ≠ 0
       ∧ sizeSum fields ≤ union_data_size tag_in_ptr tagW other_tags
       ∧ (0 < sizeSum fields →
           extra_offset < extra_offset + union_data_size tag_in_ptr tagW other_tags))
    ∧ (0 < extra_offset →
       build_clone_tag_help_step tag_in_ptr ptrW tagW
          (.nullableUnwrapped other_fields) false tag_id offset extra_offset
        = ⟨[⟨offset, extra_offset, ptrW⟩],
            .recurse ⟨extra_offset, extra_offset + sizeSum other_fields⟩
              other_fields⟩
       ∧ extra_offset ≠ 0
       ∧ (0 < sizeSum other_fields →
           extra_offset < extra_offset + sizeSum other_fields)) := by
  intro tag_in_ptr ptrW tagW nullable_id other_tags other_fields tag_id offset
    extra_offset fields
  refine ⟨rfl, rfl, ?_, ?_⟩
  · intro hpos hget
    have hmem : fields ∈ other_tags := by
      by_cases hc : nullable_id ≤ tag_id
      · rw [if_pos hc] at hget
        exact List.get?_mem hget
      · rw [if_neg hc] at hget
        exact List.get?_mem hget
    have hne : other_tags.isEmpty = false := by
      cases other_tags with
      | nil => simp at hmem
      | cons a rest => rfl
    have hle := sizeSum_le_union_data_size tag_in_ptr tagW other_tags fields hmem
    refine ⟨?_, ?_, by omega, hle, fun hs => by omega⟩
    · by_cases hc : nullable_id ≤ tag_id
      · rw [if_pos hc] at hget
        rw [List.get?_eq_getElem?] at hget
        simp [build_clone_tag_help_step, hne, hc, hget]
      · rw [if_neg hc] at hget
        rw [List.get?_eq_getElem?] at hget
        simp [build_clone_tag_help_step, hne, hc, hget]
    · by_cases ht : tag_in_ptr
      · simp [write_pointer_with_tag_id, ht]
      · simp [write_pointer_with_tag_id, ht]
  · intro hpos
    refine ⟨rfl, by omega, fun hs => by omega⟩

end Roc

namespace Roc

/-- Witness for claim C6, on a nullable-wrapped union (nullable id 0,
non-null variants of field sizes [8] and [16], tag word not in pointer,
8-byte words): the null case writes one zero word and keeps extra offset
24; non-null tag 1 writes the offset reference 24 and recurses with the
extra offset advanced to 48 ≥ 24 + sizeSum [8]. -/
theorem claim_C6_witness :
    (0 : Nat) < 24
    ∧ (if (0 : Nat) ≤ 1 then
        ([[8], [16]] : List (List Nat)).get? (1 - 1) = some [8]
       else ([[8], [16]] : List (List Nat)).get? 1 = some [8])
    ∧ build_clone_tag_help_step false 8 8 (.nullableWrapped 0 [[8], [16]])
        false 1 0 24
      = ⟨[⟨0, 24, 8⟩], .recurse ⟨24, 48⟩ [8]⟩
    ∧ build_clone_tag_help_step false 8 8 (.nullableWrapped 0 [[8], [16]])
        true 1 0 24
      = ⟨[⟨0, 0, 8⟩], .ret 24⟩
    ∧ sizeSum [8] ≤ union_data_size false 8 [[8], [16]] :=
  ⟨by decide, by decide,
   ((claim_C6_nullable_union_clone false 8 8 0 [[8], [16]] [] 1 0 24
       [8]).2.2.1 (by decide) (by decide)).1,
   (claim_C6_nullable_union_clone false 8 8 0 [[8], [16]] [] 1 0 24 [8]).1,
   ((claim_C6_nullable_union_clone false 8 8 0 [[8], [16]] [] 1 0 24
       [8]).2.2.1 (by decide) (by decide)).2.2.2.1⟩

/-- Claim C7: for a well-formed (possibly self- or mutually recursive)
union layout, clone-helper generation terminates successfully; the
resulting procedure table holds exactly one procedure per union identity
(its keys are distinct), every generated procedure is for a union identity
reachable in the layout, re-requesting generation for the same union finds
the cached procedure by its key and emits only the call (the table is
unchanged), and a recursive-pointer occurrence resolves to a call to the
cached procedure without generating or inlining anything. -/
theorem claim_C7_recursive_union_generation_terminates : ∀ (uid : Nat)
    (variants : List (List CLayout)),
    wfClosed [] (.unionB uid variants) = true →
    (genCloneTag uid variants []).isSome = true
    ∧ (∀ (t1 : ProcTable) (cs : List Nat),
        genCloneTag uid variants [] = some (t1, cs) →
        cs = [uid]
        ∧ uid ∈ tableKeys t1
        ∧ (tableKeys t1).Nodup
        ∧ (∀ k, k ∈ tableKeys t1 → k ∈ unionUids (.unionB uid variants))
        ∧ genCloneTag uid variants t1 = some (t1, [uid])
        ∧ genClone (.recPtr uid) t1 = some (t1, [uid])) := by
  intro uid variants hwf
  have hwf2 : wfClosedVariants (uid :: []) variants = true := by
    simpa [wfClosed] using hwf
  constructor
  · exact genCloneTag_isSome uid variants [] [] hwf2
      (fun k hk => absurd hk (by simp))
  · intro t1 cs h
    have m := genCloneTag_mono uid variants [] t1 cs h
    refine ⟨m.1, m.2.1, ?_, ?_, ?_, ?_⟩
    · exact m.2.2.2.2 (by simp [tableKeys])
    · intro k hk
      rcases m.2.2.2.1 k hk with h1 | h1
      · simp [tableKeys] at h1
      · simpa [unionUids] using h1
    · simp [genCloneTag, m.2.1]
    · simp [genClone, m.2.1]

/-- Witness for claim C7 on a self-recursive list-like union
`U0 = [Cons scalar (RecursivePointer U0), Nil]`: generation from an empty
table terminates with exactly one procedure, whose body calls the
procedure itself for the recursive-pointer occurrence, and both a second
generation request and a recursive pointer resolve to calls against the
cached procedure without touching the table. -/
theorem claim_C7_witness :
    wfClosed [] (.unionB 0 [[CLayout.scalar, CLayout.recPtr 0], []]) = true
    ∧ genCloneTag 0 [[CLayout.scalar, CLayout.recPtr 0], []] []
        = some ([(0, [0])], [0])
    ∧ (genCloneTag 0 [[CLayout.scalar, CLayout.recPtr 0], []] []).isSome = true
    ∧ genCloneTag 0 [[CLayout.scalar, CLayout.recPtr 0], []] [(0, [0])]
        = some ([(0, [0])], [0])
    ∧ genClone (.recPtr 0) [(0, [0])] = some ([(0, [0])], [0]) := by
  have hwf : wfClosed [] (.unionB 0 [[CLayout.scalar, CLayout.recPtr 0], []])
      = true := by
    simp [wfClosed, wfClosedVariants, wfClosedList]
  have hgen : genCloneTag 0 [[CLayout.scalar, CLayout.recPtr 0], []] []
      = some ([(0, [0])], [0]) := by
    simp [genCloneTag, genCloneVariants, genCloneList, genClone, tableKeys,
      setBody]
  have main := claim_C7_recursive_union_generation_terminates 0
    [[CLayout.scalar, CLayout.recPtr 0], []] hwf
  exact ⟨hwf, hgen, main.1, ((main.2 _ _ hgen)).2.2.2.2.1,
    ((main.2 _ _ hgen)).2.2.2.2.2⟩

end Roc
